import Mathlib

/-!
Shallow embedding of the mini-SWE agent core (ollama-remote-mcp): task
parsing (`TaskParser.ts`), model scoring and selection (`ModelSelector.ts`),
execution with fallback (`TaskExecutor.ts`) and the model registry
(`ModelRegistry.ts`), together with theorems about the specified behaviour.

JavaScript numbers are modelled as rationals (`ℚ`), strings as Lean
strings with character-list operations mirroring `toLowerCase`,
`includes` and `trim`, the `Map` of profiles as an insertion-ordered
association list, thrown exceptions as `Except`, and the external
asynchronous chat capability as an oracle from requests to outcomes.
-/

namespace MiniSWE

/-! ## Data model (src/types/index.ts) -/

inductive TaskDomain where
  | code
  | math
  | reasoning
  | multimodal
  | general
deriving DecidableEq, Repr

inductive TaskComplexity where
  | simple
  | moderate
  | complex
  | expert
deriving DecidableEq, Repr

inductive TaskType where
  | code_generation
  | bug_fixing
  | code_review
  | test_writing
  | documentation
  | architecture_analysis
  | general
deriving DecidableEq, Repr

structure TaskParserInput where
  description : String
  context : Option String
  taskType : Option String
deriving DecidableEq, Repr

structure ParsedTask where
  description : String
  domain : TaskDomain
  complexity : TaskComplexity
  requiredCapabilities : List String
  contextSize : Nat
  taskType : TaskType
deriving DecidableEq, Repr

structure ModelProfile where
  name : String
  provider : String
  domains : List String
  maxComplexity : TaskComplexity
  capabilities : List String
  contextWindow : ℚ
  estimatedLatency : ℚ
  costPerToken : ℚ
  strengths : List String
  weaknesses : List String
  available : Bool
deriving DecidableEq, Repr

structure ModelScore where
  modelName : String
  score : ℚ
  domainMatch : ℚ
  complexityMatch : ℚ
  capabilityMatch : ℚ
  contextMatch : ℚ
  latencyScore : ℚ
  justification : String
deriving DecidableEq, Repr

structure SelectionResult where
  selectedModel : String
  score : ModelScore
  alternatives : List ModelScore
  reasoning : String
deriving DecidableEq, Repr

structure ValidationError where
  message : String
deriving DecidableEq, Repr

structure ConfigurationError where
  message : String
deriving DecidableEq, Repr

structure AvailabilityError where
  message : String
deriving DecidableEq, Repr

/-! ## String helpers modelling the JavaScript primitives -/

/-- Model of `Char` lowercasing as performed by `String.prototype.toLowerCase`
on ASCII input. -/
def lowerChar (c : Char) : Char :=
  if 'A' ≤ c ∧ c ≤ 'Z' then Char.ofNat (c.toNat + 32) else c

/-- Model of `String.prototype.toLowerCase` (ASCII). -/
def toLowerJS (s : String) : String :=
  ⟨s.data.map lowerChar⟩

/-- Characters removed by `String.prototype.trim` (ASCII whitespace). -/
def isWhitespaceJS (c : Char) : Bool :=
  c = ' ' ∨ c = '\t' ∨ c = '\n' ∨ c = '\r'

/-- Model of `String.prototype.trim`. -/
def trimJS (s : String) : String :=
  ⟨((s.data.dropWhile isWhitespaceJS).reverse.dropWhile isWhitespaceJS).reverse⟩

/-- Whether the first character list is a prefix of the second. -/
def isPrefixOfJS : List Char → List Char → Bool
  | [], _ => true
  | _ :: _, [] => false
  | c :: cs, d :: ds => c = d && isPrefixOfJS cs ds

/-- Whether the pattern occurs contiguously somewhere in the text. -/
def containsSub (pattern : List Char) : List Char → Bool
  | [] => isPrefixOfJS pattern []
  | c :: cs => isPrefixOfJS pattern (c :: cs) || containsSub pattern cs

/-- Model of `String.prototype.includes`: the pattern occurs contiguously in
the text. -/
def includesJS (text pattern : String) : Bool :=
  containsSub pattern.data text.data

/-! ## TaskParser (src/components/TaskParser.ts) -/

/-- Model of `TaskParser.matchesPatterns`: true when the text contains any of the
patterns as a substring. -/
def matchesPatterns (text : String) (patterns : List String) : Bool :=
  patterns.any (fun pattern => includesJS text pattern)

/-- The synonym table of `TaskParser.normalizeTaskType`. -/
def typeMap : List (String × TaskType) :=
  [("code_generation", TaskType.code_generation),
   ("codegen", TaskType.code_generation),
   ("generate", TaskType.code_generation),
   ("bug_fixing", TaskType.bug_fixing),
   ("bugfix", TaskType.bug_fixing),
   ("fix", TaskType.bug_fixing),
   ("code_review", TaskType.code_review),
   ("review", TaskType.code_review),
   ("test_writing", TaskType.test_writing),
   ("test", TaskType.test_writing),
   ("testing", TaskType.test_writing),
   ("documentation", TaskType.documentation),
   ("docs", TaskType.documentation),
   ("architecture_analysis", TaskType.architecture_analysis),
   ("architecture", TaskType.architecture_analysis),
   ("design", TaskType.architecture_analysis)]

/-- Model of `TaskParser.normalizeTaskType`: fixed synonym-table lookup on the
lower-cased explicit type, `null` when unrecognized. -/
def normalizeTaskType (type : String) : Option TaskType :=
  typeMap.lookup (toLowerJS type)

/-- Model of `TaskParser.detectTaskType`: explicit type (when truthy and recognized)
wins; otherwise keyword groups are scanned in priority order over the
lower-cased description. -/
def detectTaskType (explicitType : Option String) (description : String) : TaskType :=
  let fromExplicit : Option TaskType :=
    match explicitType with
    | some t => if t = "" then none else normalizeTaskType t
    | none => none
  match fromExplicit with
  | some t => t
  | none =>
    let lowerDesc := toLowerJS description
    if matchesPatterns lowerDesc ["generate", "create", "write code", "implement"] then
      TaskType.code_generation
    else if matchesPatterns lowerDesc ["bug", "fix", "error", "issue", "debug"] then
      TaskType.bug_fixing
    else if matchesPatterns lowerDesc ["review", "analyze code", "check code", "audit"] then
      TaskType.code_review
    else if matchesPatterns lowerDesc ["test", "unit test", "testing", "test case"] then
      TaskType.test_writing
    else if matchesPatterns lowerDesc ["document", "documentation", "readme", "doc"] then
      TaskType.documentation
    else if matchesPatterns lowerDesc ["architecture", "design", "structure", "system"] then
      TaskType.architecture_analysis
    else
      TaskType.general

/-- Model of `TaskParser.detectDomain`: a code-flavoured task type forces domain
`code`; otherwise content keywords are scanned in order. -/
def detectDomain (description : String) (taskType : TaskType) : TaskDomain :=
  let lowerDesc := toLowerJS description
  if taskType ∈ [TaskType.code_generation, TaskType.bug_fixing,
      TaskType.code_review, TaskType.test_writing] then
    TaskDomain.code
  else if matchesPatterns lowerDesc ["math", "calculate", "formula", "equation", "proof"] then
    TaskDomain.math
  else if matchesPatterns lowerDesc ["reason", "logic", "deduce", "infer", "conclude"] then
    TaskDomain.reasoning
  else if matchesPatterns lowerDesc ["image", "video", "audio", "visual", "diagram"] then
    TaskDomain.multimodal
  else if matchesPatterns lowerDesc ["code", "function", "class", "api", "program", "script"] then
    TaskDomain.code
  else
    TaskDomain.general

/-- Model of `TaskParser.detectComplexity`: tiers checked top-down, each tier an OR
of a keyword group and a length threshold. -/
def detectComplexity (description : String) : TaskComplexity :=
  let lowerDesc := toLowerJS description
  let length := description.length
  if matchesPatterns lowerDesc
      ["complex", "advanced", "sophisticated", "distributed", "scalable",
       "high-performance", "optimize", "refactor entire", "architectural"] then
    TaskComplexity.expert
  else if matchesPatterns lowerDesc
      ["multiple", "integrate", "system", "framework", "algorithm",
       "design pattern"] || decide (length > 500) then
    TaskComplexity.complex
  else if matchesPatterns lowerDesc
      ["implement", "create", "build", "develop", "function", "class"] ||
      decide (length > 200) then
    TaskComplexity.moderate
  else
    TaskComplexity.simple

/-- Model of `Set.add` followed by `Array.from`: append the element unless
already present, preserving insertion order. -/
def addCap (caps : List String) (c : String) : List String :=
  if c ∈ caps then caps else caps ++ [c]

/-- Model of `TaskParser.extractCapabilities`: capabilities accumulated additively
from domain, task type and content keywords; `reasoning` always added. -/
def extractCapabilities (description : String) (taskType : TaskType)
    (domain : TaskDomain) : List String :=
  let lowerDesc := toLowerJS description
  let caps : List String := []
  let caps := if domain = TaskDomain.code then addCap caps ("code_generation") else caps
  let caps := if domain = TaskDomain.math then addCap caps ("math") else caps
  let caps := if domain = TaskDomain.reasoning then addCap caps ("reasoning") else caps
  let caps := if domain = TaskDomain.multimodal then addCap caps ("multimodal") else caps
  let caps := if taskType = TaskType.test_writing then addCap caps ("testing") else caps
  let caps := if taskType = TaskType.bug_fixing then addCap caps ("debugging") else caps
  let caps := if matchesPatterns lowerDesc ["tool", "command", "terminal", "cli"] then
    addCap caps ("tool_use") else caps
  let caps := if matchesPatterns lowerDesc ["analyze", "review", "audit"] then
    addCap caps ("code_analysis") else caps
  let caps := if matchesPatterns lowerDesc ["explain", "document", "describe"] then
    addCap caps ("explanation") else caps
  addCap caps ("reasoning")

/-- Model of `TaskParser.calculateContextSize`: character length of the context, 0
when absent (or empty, which is falsy). -/
def calculateContextSize (context : Option String) : Nat :=
  match context with
  | none => 0
  | some c => if c = "" then 0 else c.length

/-- Model of `TaskParser.validateTask`: rejects an empty or whitespace-only
description, then a trimmed description shorter than 10 characters. -/
def validateTask (input : TaskParserInput) : Except ValidationError Unit :=
  if input.description = "" ∨ (trimJS input.description).length = 0 then
    Except.error ⟨"Task description cannot be empty or contain only whitespace"⟩
  else if (trimJS input.description).length < 10 then
    Except.error ⟨"Task description is too short. Please provide more detail (minimum 10 characters)"⟩
  else
    Except.ok ()

/-- Model of `TaskParser.parseTask`: validate, then assemble the parsed task from
the detector functions on the trimmed description. -/
def parseTask (input : TaskParserInput) : Except ValidationError ParsedTask :=
  match validateTask input with
  | Except.error e => Except.error e
  | Except.ok _ =>
    let description := trimJS input.description
    let taskType := detectTaskType input.taskType description
    let domain := detectDomain description taskType
    let complexity := detectComplexity description
    let requiredCapabilities := extractCapabilities description taskType domain
    let contextSize := calculateContextSize input.context
    Except.ok
      { description := description
        domain := domain
        complexity := complexity
        requiredCapabilities := requiredCapabilities
        contextSize := contextSize
        taskType := taskType }

/-! ## ModelSelector (src/components/ModelSelector.ts) -/

/-- Model of `Math.round(x * 100) / 100`: rounding to two decimal places,
halves rounded toward positive infinity as `Math.round` does. -/
def round2 (x : ℚ) : ℚ :=
  ((round (x * 100) : ℤ) : ℚ) / 100

/-- String value of a task domain, as interpolated by the TypeScript
union-of-literals type. -/
def domainToString : TaskDomain → String
  | TaskDomain.code => "code"
  | TaskDomain.math => "math"
  | TaskDomain.reasoning => "reasoning"
  | TaskDomain.multimodal => "multimodal"
  | TaskDomain.general => "general"

/-- String value of a task complexity. -/
def complexityToString : TaskComplexity → String
  | TaskComplexity.simple => "simple"
  | TaskComplexity.moderate => "moderate"
  | TaskComplexity.complex => "complex"
  | TaskComplexity.expert => "expert"

/-- Index of a complexity in `['simple', 'moderate', 'complex', 'expert']`. -/
def complexityLevel : TaskComplexity → ℕ
  | TaskComplexity.simple => 0
  | TaskComplexity.moderate => 1
  | TaskComplexity.complex => 2
  | TaskComplexity.expert => 3

/-- Model of `ModelSelector.calculateDomainMatch`: 100 on exact membership, 50 for a
general task or a general-capable model, 40 for reasoning handled by a code
model, 0 otherwise. -/
def calculateDomainMatch (task : ParsedTask) (profile : ModelProfile) : ℚ :=
  if domainToString task.domain ∈ profile.domains then 100
  else if task.domain = TaskDomain.general ∨ ("general") ∈ profile.domains then 50
  else if task.domain = TaskDomain.reasoning ∧ ("code") ∈ profile.domains then 40
  else 0

/-- Model of `ModelSelector.calculateComplexityMatch`: 100 when the model's ceiling
is at least the task level, otherwise 100 minus 30 per level of gap,
floored at 0. -/
def calculateComplexityMatch (task : ParsedTask) (profile : ModelProfile) : ℚ :=
  let taskLevel := complexityLevel task.complexity
  let modelLevel := complexityLevel profile.maxComplexity
  if modelLevel ≥ taskLevel then 100
  else max 0 (100 - ((taskLevel : ℚ) - (modelLevel : ℚ)) * 30)

/-- Model of `ModelSelector.calculateCapabilityMatch`: fraction of required
capabilities present in the profile, scaled to 100; 100 when nothing is
required. -/
def calculateCapabilityMatch (task : ParsedTask) (profile : ModelProfile) : ℚ :=
  if task.requiredCapabilities.length = 0 then 100
  else
    let matchedCapabilities :=
      task.requiredCapabilities.filter (fun cap => decide (cap ∈ profile.capabilities))
    ((matchedCapabilities.length : ℚ) / (task.requiredCapabilities.length : ℚ)) * 100

/-- Model of `ModelSelector.calculateContextMatch`: thresholds at 50%, 80% and 100%
of the context window for the combined description-plus-context size. -/
def calculateContextMatch (task : ParsedTask) (profile : ModelProfile) : ℚ :=
  let estimatedTaskSize : ℚ := (task.description.length : ℚ) + (task.contextSize : ℚ)
  if estimatedTaskSize ≤ profile.contextWindow * 0.5 then 100
  else if estimatedTaskSize ≤ profile.contextWindow * 0.8 then 80
  else if estimatedTaskSize ≤ profile.contextWindow then 60
  else 0

/-- Model of `ModelSelector.calculateLatencyScore`: latency clamped to
[1000, 10000] ms and linearly inverted onto [0, 100], clamped again. -/
def calculateLatencyScore (profile : ModelProfile) : ℚ :=
  let maxLatency : ℚ := 10000
  let minLatency : ℚ := 1000
  let normalizedLatency := min (max profile.estimatedLatency minLatency) maxLatency
  let score := 100 - ((normalizedLatency - minLatency) / (maxLatency - minLatency)) * 100
  max 0 (min 100 score)

/-- Model of `ModelSelector.generateJustification`: three categorical phrases joined
by commas. -/
def generateJustification (_profile : ModelProfile)
    (domainMatch complexityMatch capabilityMatch _contextMatch _latencyScore : ℚ) : String :=
  let p1 :=
    if domainMatch ≥ 100 then ("Perfect domain match")
    else if domainMatch ≥ 50 then ("Partial domain match")
    else ("Limited domain match")
  let p2 :=
    if complexityMatch ≥ 100 then ("can handle required complexity")
    else if complexityMatch ≥ 70 then ("mostly suitable for complexity level")
    else ("may struggle with task complexity")
  let p3 :=
    if capabilityMatch ≥ 100 then ("has all required capabilities")
    else if capabilityMatch ≥ 70 then ("has most required capabilities")
    else ("missing some capabilities")
  String.intercalate (", ") [p1, p2, p3]

/-- Model of `ModelSelector.scoreModel`: five sub-scores combined with weights
30/25/25/10/10 percent; every stored figure rounded to two decimals. -/
def scoreModel (task : ParsedTask) (profile : ModelProfile) : ModelScore :=
  let domainMatch := calculateDomainMatch task profile
  let complexityMatch := calculateComplexityMatch task profile
  let capabilityMatch := calculateCapabilityMatch task profile
  let contextMatch := calculateContextMatch task profile
  let latencyScore := calculateLatencyScore profile
  let totalScore :=
    domainMatch * 0.3 +
    complexityMatch * 0.25 +
    capabilityMatch * 0.25 +
    contextMatch * 0.1 +
    latencyScore * 0.1
  let justification :=
    generateJustification profile domainMatch complexityMatch capabilityMatch
      contextMatch latencyScore
  { modelName := profile.name
    score := round2 totalScore
    domainMatch := round2 domainMatch
    complexityMatch := round2 complexityMatch
    capabilityMatch := round2 capabilityMatch
    contextMatch := round2 contextMatch
    latencyScore := round2 latencyScore
    justification := justification }

/-- The sort comparator of `ModelSelector.selectModel` as a boolean
before-or-equal relation: the JavaScript comparator returns a nonpositive
number on `(a, b)` exactly when this relation holds, so a stable sort with
this relation models `Array.prototype.sort` with that comparator. -/
def scoreCmpLE (a b : ModelScore) : Bool :=
  if |a.score - b.score| < 1/100 then decide (a.latencyScore ≤ b.latencyScore)
  else decide (b.score ≤ a.score)

/-- Insert an element into a list before the first entry it relates to. -/
def orderedInsertBy {α : Type} (r : α → α → Bool) (a : α) : List α → List α
  | [] => [a]
  | b :: l => if r a b then a :: b :: l else b :: orderedInsertBy r a l

/-- Stable insertion sort with respect to a boolean relation; model of the
(ECMAScript-stable) `Array.prototype.sort`. -/
def insertionSortBy {α : Type} (r : α → α → Bool) : List α → List α
  | [] => []
  | a :: l => orderedInsertBy r a (insertionSortBy r l)

/-- Model of `ModelRegistry`'s profile `Map`: an insertion-ordered
association list keyed by model name. -/
abbrev Registry := List (String × ModelProfile)

/-- Model of `ModelRegistry.getAvailableProfiles`: values in insertion order,
filtered by the `available` flag. -/
def getAvailableProfiles (reg : Registry) : List ModelProfile :=
  (reg.map Prod.snd).filter (fun p => p.available)

/-- Model of `ModelRegistry.getProfile`: lookup by name, `null` when absent. -/
def getProfile (reg : Registry) (modelName : String) : Option ModelProfile :=
  reg.lookup modelName

/-- Placeholder score used only to read the head of a list known to be
nonempty (`scores[0]`). -/
def defaultModelScore : ModelScore :=
  { modelName := ""
    score := 0
    domainMatch := 0
    complexityMatch := 0
    capabilityMatch := 0
    contextMatch := 0
    latencyScore := 0
    justification := "" }

/-- Decimal rendering used by `Number.prototype.toFixed(1)` on the
nonnegative scores appearing in reasoning strings. -/
def toFixed1 (q : ℚ) : String :=
  let n : ℤ := round (q * 10)
  toString (n / 10) ++ (".") ++ toString (n.natAbs % 10)

/-- Model of `ModelSelector.generateReasoning`: selection summary sentence list. -/
def generateReasoning (task : ParsedTask) (selectedScore : ModelScore)
    (alternatives : List ModelScore) : String :=
  let parts : List String :=
    [("Selected ") ++ selectedScore.modelName ++ (" with score ") ++
       toFixed1 selectedScore.score ++ ("/100"),
     ("Task characteristics: ") ++ domainToString task.domain ++ (" domain, ") ++
       complexityToString task.complexity ++ (" complexity, requires [") ++
       String.intercalate (", ") task.requiredCapabilities ++ ("]"),
     ("Scoring breakdown: ") ++ selectedScore.justification]
  let parts :=
    if alternatives.length > 0 then
      parts ++ [("Alternative models considered: ") ++
        String.intercalate (", ")
          (alternatives.map (fun alt =>
            alt.modelName ++ (" (") ++ toFixed1 alt.score ++ (")")))]
    else parts
  String.intercalate (". ") parts ++ (".")

/-- Model of `ModelSelector.selectModel`: score the available profiles, sort them by
the comparator, select index 0, keep indices 1 to 3 as alternatives; fail
with `AvailabilityError` when no profile is available. -/
def selectModel (task : ParsedTask) (reg : Registry) :
    Except AvailabilityError SelectionResult :=
  let availableProfiles := getAvailableProfiles reg
  if availableProfiles.length = 0 then
    Except.error
      ⟨"No models available. Please ensure Ollama Remote MCP is running and models are configured."⟩
  else
    let scores := availableProfiles.map (fun profile => scoreModel task profile)
    let sorted := insertionSortBy scoreCmpLE scores
    let selectedScore := sorted.headD defaultModelScore
    let alternatives := (sorted.drop 1).take 3
    Except.ok
      { selectedModel := selectedScore.modelName
        score := selectedScore
        alternatives := alternatives
        reasoning := generateReasoning task selectedScore alternatives }

/-! ## TaskExecutor (src/components/TaskExecutor.ts) -/

structure ExecutionRequest where
  task : ParsedTask
  modelName : String
  systemPrompt : String
  temperature : Option ℚ
  maxTokens : Option Nat
deriving DecidableEq, Repr

structure ExecutionMetadata where
  error : Option String
  taskType : TaskType
  domain : TaskDomain
  complexity : TaskComplexity
  temperature : Option ℚ
deriving DecidableEq, Repr

structure ExecutionResult where
  success : Bool
  modelUsed : String
  response : String
  executionTime : Nat
  tokensUsed : Nat
  confidence : ℚ
  metadata : ExecutionMetadata
deriving DecidableEq, Repr

structure ExecutionError where
  modelAttempted : String
  error : String
  timestamp : Nat
deriving DecidableEq, Repr

structure ChatResponse where
  content : String
  tokensUsed : Option Nat
  executionTime : Option Nat
deriving DecidableEq, Repr

/-- Outcome of racing one `client.chat` call against the attempt timeout:
either the call completed in time with a response, or the attempt ended
exceptionally (the call rejected, or the timeout fired first, whose
message reports the configured limit). `elapsed` is the wall-clock time
observed by `executeTask` for the attempt. -/
inductive ChatOutcome where
  | completed (response : ChatResponse) (elapsed : Nat)
  | failed (message : String) (elapsed : Nat)
deriving DecidableEq, Repr

/-- Behaviour of the external chat capability (plus timing) for each
request it may be given. -/
def Oracle : Type :=
  ExecutionRequest → ChatOutcome

/-- Model of `TaskExecutor.estimateTokens`: `Math.ceil(length / 4)`. -/
def estimateTokens (text : String) : Nat :=
  (text.length + 3) / 4

/-- Model of `TaskExecutor.calculateConfidence`: heuristic starting at 50, adjusted
by response length, execution time, code fences and explanation words,
clamped to [0, 100]. -/
def calculateConfidence (response : String) (executionTime : Nat) : ℚ :=
  let confidence : ℚ := 50
  let confidence := if response.length > 1000 then confidence + 10 else confidence
  let confidence := if response.length > 2000 then confidence + 10 else confidence
  let confidence :=
    if executionTime > 5000 ∧ executionTime < 30000 then confidence + 10 else confidence
  let confidence := if executionTime < 1000 then confidence - 10 else confidence
  let confidence := if includesJS response ("```") then confidence + 10 else confidence
  let confidence :=
    if includesJS (toLowerJS response) ("because") ∨ includesJS (toLowerJS response) ("reason")
    then confidence + 5 else confidence
  max 0 (min 100 confidence)

/-- Model of `TaskExecutor.formatMessage`: the task description (context lives in
the system prompt). -/
def formatMessage (request : ExecutionRequest) : String :=
  String.intercalate ("\n\n") [request.task.description]

/-- JavaScript `request.temperature || 0.7` (0 is falsy). -/
def jsTemperature (t : Option ℚ) : ℚ :=
  match t with
  | some x => if x = 0 then 0.7 else x
  | none => 0.7

/-- Model of `TaskExecutor.executeTask`: one attempt against one model. The whole
body is wrapped in try/catch, so it always returns an `ExecutionResult`;
an exceptional outcome (rejection or timeout) yields a failed result with
empty response, zero tokens, zero confidence and the message in
`metadata.error`. -/
def executeTask (oracle : Oracle) (request : ExecutionRequest) : ExecutionResult :=
  match oracle request with
  | ChatOutcome.completed result elapsed =>
    { success := true
      modelUsed := request.modelName
      response := result.content
      executionTime := elapsed
      tokensUsed :=
        match result.tokensUsed with
        | some n => if n = 0 then estimateTokens result.content else n
        | none => estimateTokens result.content
      confidence := calculateConfidence result.content elapsed
      metadata :=
        { error := none
          taskType := request.task.taskType
          domain := request.task.domain
          complexity := request.task.complexity
          temperature := some (jsTemperature request.temperature) } }
  | ChatOutcome.failed message elapsed =>
    { success := false
      modelUsed := request.modelName
      response := ""
      executionTime := elapsed
      tokensUsed := 0
      confidence := 0
      metadata :=
        { error := some message
          taskType := request.task.taskType
          domain := request.task.domain
          complexity := request.task.complexity
          temperature := none } }

/-- JavaScript `result.metadata?.error || 'Execution failed'`. -/
def fallbackErrorMessage (result : ExecutionResult) : String :=
  match result.metadata.error with
  | some msg => if msg = "" then ("Execution failed") else msg
  | none => "Execution failed"

/-- The candidate loop of `TaskExecutor.executeWithFallback`: try each
model in order, short-circuit on the first success, otherwise push an
error entry and continue. (`Date.now()` timestamps are modelled as 0.) -/
def fallbackLoop (oracle : Oracle) (request : ExecutionRequest) :
    List String → List ExecutionError → ExecutionResult ⊕ List ExecutionError
  | [], errors => Sum.inr errors
  | model :: rest, errors =>
    let result := executeTask oracle { request with modelName := model }
    if result.success then Sum.inl result
    else
      fallbackLoop oracle request rest
        (errors ++ [{ modelAttempted := model
                      error := fallbackErrorMessage result
                      timestamp := 0 }])

/-- Model of `TaskExecutor.executeWithFallback`: candidates are the primary model
followed by the fallback list; returns either the first successful result
or the accumulated error list. -/
def executeWithFallback (oracle : Oracle) (request : ExecutionRequest)
    (fallbackModels : List String) : ExecutionResult ⊕ List ExecutionError :=
  fallbackLoop oracle request (request.modelName :: fallbackModels) []

/-! ## ModelRegistry loading (src/components/ModelRegistry.ts) -/

/-- A raw configuration entry for one model: each field is `some` when
present in the parsed source and of the expected type. -/
structure RawProfileData where
  provider : Option String
  domains : Option (List String)
  maxComplexity : Option String
  capabilities : Option (List String)
  contextWindow : Option ℚ
  estimatedLatency : Option ℚ
  costPerToken : Option ℚ
  strengths : Option (List String)
  weaknesses : Option (List String)
deriving DecidableEq, Repr

/-- Membership test against `['simple', 'moderate', 'complex', 'expert']`. -/
def parseComplexity (s : String) : Option TaskComplexity :=
  if s = "simple" then some TaskComplexity.simple
  else if s = "moderate" then some TaskComplexity.moderate
  else if s = "complex" then some TaskComplexity.complex
  else if s = "expert" then some TaskComplexity.expert
  else none

/-- Model of `ModelRegistry.validateAndCreateProfile`: required-field presence, then
non-empty `domains` and `capabilities`, positive `contextWindow`,
non-negative `estimatedLatency` and `costPerToken`, and a valid
`maxComplexity`; `available` starts false. -/
def validateAndCreateProfile (modelName : String) (data : RawProfileData) :
    Except ConfigurationError ModelProfile :=
  match data.provider, data.domains, data.maxComplexity, data.capabilities,
      data.contextWindow, data.estimatedLatency, data.costPerToken,
      data.strengths, data.weaknesses with
  | some provider, some domains, some maxComplexityStr, some capabilities,
      some contextWindow, some estimatedLatency, some costPerToken,
      some strengths, some weaknesses =>
    if domains = [] then Except.error ⟨"domains must be a non-empty array"⟩
    else if capabilities = [] then Except.error ⟨"capabilities must be a non-empty array"⟩
    else if contextWindow ≤ 0 then Except.error ⟨"contextWindow must be a positive number"⟩
    else if estimatedLatency < 0 then
      Except.error ⟨"estimatedLatency must be a non-negative number"⟩
    else if costPerToken < 0 then
      Except.error ⟨"costPerToken must be a non-negative number"⟩
    else
      match parseComplexity maxComplexityStr with
      | none => Except.error ⟨("Invalid maxComplexity: ") ++ maxComplexityStr⟩
      | some maxComplexity =>
        Except.ok
          { name := modelName
            provider := provider
            domains := domains
            maxComplexity := maxComplexity
            capabilities := capabilities
            contextWindow := contextWindow
            estimatedLatency := estimatedLatency
            costPerToken := costPerToken
            strengths := strengths
            weaknesses := weaknesses
            available := false }
  | _, _, _, _, _, _, _, _, _ => Except.error ⟨"Missing required field"⟩

/-- Model of `Map.prototype.set`: overwrite in place when the key exists, append
otherwise. -/
def setProfile : Registry → String → ModelProfile → Registry
  | [], name, profile => [(name, profile)]
  | (k, v) :: rest, name, profile =>
    if k = name then (k, profile) :: rest
    else (k, v) :: setProfile rest name profile

/-- The per-entry loop of `loadProfiles`: a valid entry is stored, an
invalid one is skipped with a warning. -/
def processEntries (reg : Registry) (entries : List (String × RawProfileData)) : Registry :=
  entries.foldl
    (fun r e =>
      match validateAndCreateProfile e.1 e.2 with
      | Except.ok profile => setProfile r e.1 profile
      | Except.error _ => r)
    reg

/-- What `loadProfiles` sees of its configuration source: the file read
failed, the parse produced no `models` mapping, or a list of named raw
entries in file order. -/
inductive ConfigSource where
  | unreadable (message : String)
  | malformed
  | entries (models : List (String × RawProfileData))
deriving DecidableEq, Repr

/-- Model of `ModelRegistry.loadProfiles`: mutates the profile map entry by entry
and reports a `ConfigurationError` for an unreadable or malformed source or
when the map is left empty; the pair carries the registry state after the
call next to the outcome, since entries stored before a final error remain
stored. -/
def loadProfiles (reg : Registry) (src : ConfigSource) :
    Registry × Option ConfigurationError :=
  match src with
  | ConfigSource.unreadable message =>
    (reg, some ⟨("Failed to load configuration: ") ++ message⟩)
  | ConfigSource.malformed =>
    (reg, some ⟨"Invalid configuration format: missing or invalid models field"⟩)
  | ConfigSource.entries models =>
    let reg2 := processEntries reg models
    if reg2.length = 0 then
      (reg2, some ⟨"No valid model profiles found in configuration"⟩)
    else (reg2, none)

/-- Model of `ModelRegistry.verifyAvailability`: set every profile's flag by
membership of its name in the given list. -/
def verifyAvailability (reg : Registry) (availableModels : List String) : Registry :=
  reg.map (fun e => (e.1, { e.2 with available := decide (e.1 ∈ availableModels) }))

deriving instance DecidableEq for Except

/-! ## Concrete fixtures used by witnesses and counterexamples -/

/-- The spec's worked example input: no explicit type, no context. -/
def fibInput : TaskParserInput :=
  { description := "Write a function to calculate fibonacci numbers"
    context := none
    taskType := none }

/-- The descriptor the parser actually produces for `fibInput`. -/
def fibTask : ParsedTask :=
  { description := "Write a function to calculate fibonacci numbers"
    domain := TaskDomain.math
    complexity := TaskComplexity.moderate
    requiredCapabilities := ["math", "reasoning"]
    contextSize := 0
    taskType := TaskType.general }

/-- A concrete execution request around `fibTask`. -/
def wRequest : ExecutionRequest :=
  { task := fibTask
    modelName := "m1"
    systemPrompt := ""
    temperature := none
    maxTokens := none }

/-- An oracle on which every chat attempt fails. -/
def wOracleFail : Oracle :=
  fun _ => ChatOutcome.failed ("connection refused") 10

/-- An oracle on which only the model named `m2` succeeds. -/
def wOracleM2 : Oracle :=
  fun r =>
    if r.modelName = "m2" then
      ChatOutcome.completed { content := "ok result", tokensUsed := some 5, executionTime := none } 100
    else ChatOutcome.failed ("down") 5

/-! ## Helper lemmas -/

theorem mem_addCap_self (l : List String) (c : String) : c ∈ addCap l c := by
  unfold addCap
  split
  · assumption
  · simp

theorem addCap_ne_nil (l : List String) (c : String) : addCap l c ≠ [] := by
  intro h
  have hm := mem_addCap_self l c
  rw [h] at hm
  exact absurd hm (List.not_mem_nil c)

theorem validateTask_ok_iff (input : TaskParserInput) :
    validateTask input = Except.ok () ↔
      ¬(input.description = "" ∨ (trimJS input.description).length = 0 ∨
        (trimJS input.description).length < 10) := by
  unfold validateTask
  by_cases h1 : input.description = "" ∨ (trimJS input.description).length = 0
  · rw [if_pos h1]
    constructor
    · intro h
      exact absurd h (by simp)
    · intro h
      exfalso
      apply h
      rcases h1 with h1 | h1
      · exact Or.inl h1
      · exact Or.inr (Or.inl h1)
  · rw [if_neg h1]
    by_cases h2 : (trimJS input.description).length < 10
    · rw [if_pos h2]
      constructor
      · intro h
        exact absurd h (by simp)
      · intro h
        exact absurd (Or.inr (Or.inr h2)) h
    · rw [if_neg h2]
      constructor
      · intro _
        push_neg at h1
        push_neg
        exact ⟨h1.1, h1.2, by omega⟩
      · intro _
        rfl

theorem executeTask_modelUsed (oracle : Oracle) (r : ExecutionRequest) :
    (executeTask oracle r).modelUsed = r.modelName := by
  unfold executeTask
  cases oracle r <;> rfl

theorem executeTask_congr {oracle2 oracle : Oracle} (r : ExecutionRequest)
    (h : oracle2 r = oracle r) : executeTask oracle2 r = executeTask oracle r := by
  unfold executeTask
  rw [h]

/-- The error entry recorded for one failed attempt. -/
def attemptError (oracle : Oracle) (request : ExecutionRequest) (m : String) : ExecutionError :=
  { modelAttempted := m
    error := fallbackErrorMessage (executeTask oracle { request with modelName := m })
    timestamp := 0 }

theorem fallbackLoop_all_fail (oracle : Oracle) (request : ExecutionRequest) :
    ∀ (pre rest : List String) (acc : List ExecutionError),
      (∀ m ∈ pre, (executeTask oracle { request with modelName := m }).success = false) →
      fallbackLoop oracle request (pre ++ rest) acc =
        fallbackLoop oracle request rest (acc ++ pre.map (attemptError oracle request)) := by
  intro pre
  induction pre with
  | nil =>
    intro rest acc _
    simp
  | cons m tail ih =>
    intro rest acc h
    have hm := h m (List.mem_cons_self m tail)
    rw [List.cons_append]
    show (if (executeTask oracle { request with modelName := m }).success then _ else _) = _
    rw [hm]
    simp only [Bool.false_eq_true, if_false]
    rw [ih rest _ (fun x hx => h x (List.mem_cons_of_mem m hx))]
    simp [attemptError, List.append_assoc]

theorem reasoning_mem_extractCapabilities (d : String) (tt : TaskType) (dom : TaskDomain) :
    ("reasoning") ∈ extractCapabilities d tt dom := by
  unfold extractCapabilities
  exact mem_addCap_self _ _

theorem extractCapabilities_ne_nil (d : String) (tt : TaskType) (dom : TaskDomain) :
    extractCapabilities d tt dom ≠ [] := by
  unfold extractCapabilities
  exact addCap_ne_nil _ _

/-! ## Claim theorems: task parsing -/

/-- C4: `parseTask` fails with a `ValidationError` exactly when the
description is empty, whitespace-only, or shorter than 10 characters after
trimming; on every valid input it returns a descriptor built from the
trimmed description (hence at least 10 characters long), with `reasoning`
among the non-empty required capabilities. -/
theorem parseTask_validation_spec :
    (∀ input : TaskParserInput,
        (∃ e, parseTask input = Except.error e) ↔
          (input.description = "" ∨ (trimJS input.description).length = 0 ∨
            (trimJS input.description).length < 10)) ∧
    (∀ (input : TaskParserInput) (t : ParsedTask), parseTask input = Except.ok t →
        t.description = trimJS input.description ∧ 10 ≤ t.description.length ∧
        ("reasoning") ∈ t.requiredCapabilities ∧ t.requiredCapabilities ≠ []) := by
  constructor
  · intro input
    cases hv : validateTask input with
    | error e =>
      have hp : parseTask input = Except.error e := by
        unfold parseTask
        rw [hv]
      constructor
      · intro _
        by_contra hc
        have hok := (validateTask_ok_iff input).mpr hc
        rw [hv] at hok
        exact absurd hok (by simp)
      · intro _
        exact ⟨e, hp⟩
    | ok u =>
      cases u
      have hc := (validateTask_ok_iff input).mp hv
      constructor
      · rintro ⟨e, he⟩
        unfold parseTask at he
        rw [hv] at he
        exact absurd he (by simp)
      · intro h
        exact absurd h hc
  · intro input t h
    cases hv : validateTask input with
    | error e =>
      unfold parseTask at h
      rw [hv] at h
      exact absurd h (by simp)
    | ok u =>
      cases u
      have hc := (validateTask_ok_iff input).mp hv
      push_neg at hc
      unfold parseTask at h
      rw [hv] at h
      simp only [Except.ok.injEq] at h
      subst h
      refine ⟨rfl, ?_, ?_, ?_⟩
      · show 10 ≤ (trimJS input.description).length
        omega
      · exact reasoning_mem_extractCapabilities _ _ _
      · exact extractCapabilities_ne_nil _ _ _

/-- C4 witness: the fibonacci input is valid, so the characterization
applies to it concretely. -/
theorem parseTask_validation_spec_witness :
    ¬(fibInput.description = "" ∨ (trimJS fibInput.description).length = 0 ∨
        (trimJS fibInput.description).length < 10) ∧
    ("reasoning") ∈ fibTask.requiredCapabilities := by
  constructor
  · intro h
    have := (parseTask_validation_spec.1 fibInput).mpr h
    obtain ⟨e, he⟩ := this
    rw [show parseTask fibInput = Except.ok fibTask from by decide] at he
    exact absurd he (by simp)
  · exact (parseTask_validation_spec.2 fibInput fibTask (by decide)).2.2.1

/-- C3 counterexample: on the description `"Write a function to calculate
fibonacci numbers"` with no explicit task type, `parseTask` returns task
type `general` (no code-generation keyword occurs in the text) and domain
`math` (the word `calculate` is a math keyword), and `code_generation` is
not among the required capabilities — contradicting the claimed
`code_generation`/`code` outcome. -/
theorem parseTask_fibonacci_counterexample :
    parseTask fibInput = Except.ok fibTask ∧
    fibTask.taskType ≠ TaskType.code_generation ∧
    fibTask.domain ≠ TaskDomain.code ∧
    ("code_generation") ∉ fibTask.requiredCapabilities := by
  refine ⟨by decide, by decide, by decide, by decide⟩

/-- C3 amended: for the fibonacci input with no explicit taskType and no
context, `parseTask` returns a descriptor with `taskType = general`,
`domain = math`, and `requiredCapabilities` a superset of
`{math, reasoning}` (in fact exactly `[math, reasoning]`). -/
theorem parseTask_fibonacci_amended :
    parseTask fibInput = Except.ok fibTask ∧
    fibTask.taskType = TaskType.general ∧
    fibTask.domain = TaskDomain.math ∧
    ("math") ∈ fibTask.requiredCapabilities ∧
    ("reasoning") ∈ fibTask.requiredCapabilities ∧
    fibTask.requiredCapabilities = ["math", "reasoning"] := by
  refine ⟨by decide, by decide, by decide, by decide, by decide, by decide⟩

/-! ## Claim theorems: execution -/

/-- C9: `executeTask` is total — its whole body is inside try/catch, so for
every oracle behaviour it returns an `ExecutionResult` — and whenever the
chat call ends exceptionally (rejection or timeout), the result records
`success = false`, an empty response, zero tokens, zero confidence, the
message under `metadata.error`, the attempted model and the elapsed time. -/
theorem executeTask_failure_spec :
    ∀ (oracle : Oracle) (request : ExecutionRequest) (message : String) (elapsed : ℕ),
      oracle request = ChatOutcome.failed message elapsed →
      (executeTask oracle request).success = false ∧
      (executeTask oracle request).response = "" ∧
      (executeTask oracle request).tokensUsed = 0 ∧
      (executeTask oracle request).confidence = 0 ∧
      (executeTask oracle request).metadata.error = some message ∧
      (executeTask oracle request).modelUsed = request.modelName ∧
      (executeTask oracle request).executionTime = elapsed := by
  intro oracle request message elapsed h
  unfold executeTask
  rw [h]
  exact ⟨rfl, rfl, rfl, rfl, rfl, rfl, rfl⟩

/-- C9 witness: a concrete oracle whose chat call fails. -/
theorem executeTask_failure_spec_witness :
    (executeTask wOracleFail wRequest).success = false ∧
    (executeTask wOracleFail wRequest).response = "" ∧
    (executeTask wOracleFail wRequest).tokensUsed = 0 ∧
    (executeTask wOracleFail wRequest).confidence = 0 ∧
    (executeTask wOracleFail wRequest).metadata.error = some ("connection refused") ∧
    (executeTask wOracleFail wRequest).modelUsed = wRequest.modelName ∧
    (executeTask wOracleFail wRequest).executionTime = 10 :=
  executeTask_failure_spec wOracleFail wRequest ("connection refused") 10 rfl

/-- C5: when every candidate attempt fails, `executeWithFallback` returns
(never throws) the error list with exactly one entry per candidate, in the
order primary followed by the fallbacks, each entry recording that
candidate's name in `modelAttempted`. -/
theorem executeWithFallback_exhaustion :
    ∀ (oracle : Oracle) (request : ExecutionRequest) (fallbackModels : List String),
      (∀ m ∈ request.modelName :: fallbackModels,
          (executeTask oracle { request with modelName := m }).success = false) →
      executeWithFallback oracle request fallbackModels =
        Sum.inr ((request.modelName :: fallbackModels).map (attemptError oracle request)) ∧
      ((request.modelName :: fallbackModels).map (attemptError oracle request)).map
          (fun e => e.modelAttempted) = request.modelName :: fallbackModels := by
  intro oracle request fallbackModels h
  constructor
  · unfold executeWithFallback
    have h2 := fallbackLoop_all_fail oracle request (request.modelName :: fallbackModels) [] [] h
    simp only [List.append_nil, List.nil_append] at h2
    rw [h2]
    rfl
  · rw [List.map_map]
    have : (fun e => ExecutionError.modelAttempted e) ∘ attemptError oracle request = id := by
      funext m
      rfl
    rw [this, List.map_id]

/-- C5 witness: three distinct candidates, all failing, produce three
errors naming m1, m2, m3 in order. -/
theorem executeWithFallback_exhaustion_witness :
    executeWithFallback wOracleFail wRequest ["m2", "m3"] =
      Sum.inr ((wRequest.modelName :: ["m2", "m3"]).map (attemptError wOracleFail wRequest)) ∧
    ((wRequest.modelName :: ["m2", "m3"]).map (attemptError wOracleFail wRequest)).map
        (fun e => e.modelAttempted) = ["m1", "m2", "m3"] ∧
    (((wRequest.modelName :: ["m2", "m3"]).map (attemptError wOracleFail wRequest)).map
        (fun e => e.modelAttempted)).Nodup ∧
    ((wRequest.modelName :: ["m2", "m3"]).map (attemptError wOracleFail wRequest)).length = 3 := by
  have h := executeWithFallback_exhaustion wOracleFail wRequest ["m2", "m3"] (by decide)
  exact ⟨h.1, by decide, by decide, by decide⟩

/-- C6: candidates are tried strictly in the order primary-then-fallbacks
and the first success short-circuits: if every candidate before `m` fails
and `m` succeeds, the result is `m`'s successful `ExecutionResult` (so
`modelUsed = m`), and the outcome is unchanged under any other oracle that
agrees on the candidates up to and including `m` — no later candidate is
ever consulted. -/
theorem executeWithFallback_short_circuit :
    ∀ (oracle : Oracle) (request : ExecutionRequest) (fallbackModels : List String)
      (pre : List String) (m : String) (suf : List String),
      request.modelName :: fallbackModels = pre ++ m :: suf →
      (∀ x ∈ pre, (executeTask oracle { request with modelName := x }).success = false) →
      (executeTask oracle { request with modelName := m }).success = true →
      executeWithFallback oracle request fallbackModels =
        Sum.inl (executeTask oracle { request with modelName := m }) ∧
      (executeTask oracle { request with modelName := m }).modelUsed = m ∧
      (∀ oracle2 : Oracle,
        (∀ x ∈ pre ++ [m],
            oracle2 { request with modelName := x } = oracle { request with modelName := x }) →
        executeWithFallback oracle2 request fallbackModels =
          Sum.inl (executeTask oracle { request with modelName := m })) := by
  intro oracle request fallbackModels pre m suf hsplit hfail hsucc
  refine ⟨?_, ?_, ?_⟩
  · unfold executeWithFallback
    rw [hsplit, fallbackLoop_all_fail oracle request pre (m :: suf) [] hfail]
    show (if (executeTask oracle { request with modelName := m }).success then _ else _) = _
    rw [hsucc]
    simp
  · rw [executeTask_modelUsed]
  · intro oracle2 hagree
    have hfail2 : ∀ x ∈ pre,
        (executeTask oracle2 { request with modelName := x }).success = false := by
      intro x hx
      rw [executeTask_congr _ (hagree x (List.mem_append_left _ hx))]
      exact hfail x hx
    have hm2 : executeTask oracle2 { request with modelName := m } =
        executeTask oracle { request with modelName := m } :=
      executeTask_congr _ (hagree m (List.mem_append_right _ (List.mem_singleton_self m)))
    unfold executeWithFallback
    rw [hsplit, fallbackLoop_all_fail oracle2 request pre (m :: suf) [] hfail2]
    show (if (executeTask oracle2 { request with modelName := m }).success then _ else _) = _
    rw [hm2, hsucc]
    simp [hm2]

/-- C6 witness: the primary m1 fails, the first fallback m2 succeeds, so
the result is m2's and the third candidate is irrelevant. -/
theorem executeWithFallback_short_circuit_witness :
    executeWithFallback wOracleM2 wRequest ["m2", "m3"] =
      Sum.inl (executeTask wOracleM2 { wRequest with modelName := "m2" }) ∧
    (executeTask wOracleM2 { wRequest with modelName := "m2" }).modelUsed = "m2" := by
  have h := executeWithFallback_short_circuit wOracleM2 wRequest ["m2", "m3"]
    ["m1"] ("m2") ["m3"] (by decide) (by decide) (by decide)
  exact ⟨h.1, h.2.1⟩

/-! ## Score bounds and the sorted-selection argument -/

/-- All six stored figures of a `ModelScore` lie in [0, 100]. -/
def modelScoreBounded (s : ModelScore) : Prop :=
  (0 ≤ s.score ∧ s.score ≤ 100) ∧
  (0 ≤ s.domainMatch ∧ s.domainMatch ≤ 100) ∧
  (0 ≤ s.complexityMatch ∧ s.complexityMatch ≤ 100) ∧
  (0 ≤ s.capabilityMatch ∧ s.capabilityMatch ≤ 100) ∧
  (0 ≤ s.contextMatch ∧ s.contextMatch ≤ 100) ∧
  (0 ≤ s.latencyScore ∧ s.latencyScore ≤ 100)

/-- A total score as stored: an integer number of hundredths. -/
def roundedScore (s : ModelScore) : Prop :=
  ∃ k : ℤ, s.score = (k : ℚ) / 100

theorem round2_nonneg {x : ℚ} (h0 : 0 ≤ x) : 0 ≤ round2 x := by
  unfold round2
  have h1 : x * 100 + 1/2 < ((round (x * 100) : ℤ) : ℚ) + 1 := by
    rw [round_eq]
    have := Int.lt_floor_add_one (x * 100 + 1/2)
    push_cast at this ⊢
    linarith
  have h2 : ((-1 : ℤ) : ℚ) < ((round (x * 100) : ℤ) : ℚ) := by
    push_cast
    nlinarith
  have h3 : (-1 : ℤ) < round (x * 100) := by exact_mod_cast h2
  have h4 : (0 : ℚ) ≤ ((round (x * 100) : ℤ) : ℚ) := by
    have : (0 : ℤ) ≤ round (x * 100) := by omega
    exact_mod_cast this
  positivity

theorem round2_le_100 {x : ℚ} (h : x ≤ 100) : round2 x ≤ 100 := by
  unfold round2
  have h1 : ((round (x * 100) : ℤ) : ℚ) ≤ x * 100 + 1/2 := by
    rw [round_eq]
    have := Int.floor_le (x * 100 + 1/2)
    push_cast at this ⊢
    linarith
  have h2 : ((round (x * 100) : ℤ) : ℚ) < ((10001 : ℤ) : ℚ) := by
    push_cast
    nlinarith
  have h3 : round (x * 100) < (10001 : ℤ) := by exact_mod_cast h2
  have h4 : ((round (x * 100) : ℤ) : ℚ) ≤ 10000 := by
    have : round (x * 100) ≤ (10000 : ℤ) := by omega
    exact_mod_cast this
  linarith

theorem calculateDomainMatch_bounds (task : ParsedTask) (profile : ModelProfile) :
    0 ≤ calculateDomainMatch task profile ∧ calculateDomainMatch task profile ≤ 100 := by
  unfold calculateDomainMatch
  split_ifs <;> norm_num

theorem calculateComplexityMatch_bounds (task : ParsedTask) (profile : ModelProfile) :
    0 ≤ calculateComplexityMatch task profile ∧ calculateComplexityMatch task profile ≤ 100 := by
  unfold calculateComplexityMatch
  dsimp only
  split_ifs with h
  · norm_num
  · constructor
    · exact le_max_left 0 _
    · apply max_le (by norm_num)
      have hlt : complexityLevel profile.maxComplexity ≤ complexityLevel task.complexity := by
        omega
      have hc : (complexityLevel profile.maxComplexity : ℚ) ≤
          (complexityLevel task.complexity : ℚ) := by exact_mod_cast hlt
      linarith

theorem calculateCapabilityMatch_bounds (task : ParsedTask) (profile : ModelProfile) :
    0 ≤ calculateCapabilityMatch task profile ∧ calculateCapabilityMatch task profile ≤ 100 := by
  unfold calculateCapabilityMatch
  split_ifs with h
  · norm_num
  · have hr : 0 < (task.requiredCapabilities.length : ℚ) := by
      have : 0 < task.requiredCapabilities.length := Nat.pos_of_ne_zero h
      exact_mod_cast this
    have hm : ((task.requiredCapabilities.filter
        (fun cap => decide (cap ∈ profile.capabilities))).length : ℚ) ≤
        (task.requiredCapabilities.length : ℚ) := by
      exact_mod_cast List.length_filter_le _ _
    have hnn : (0 : ℚ) ≤ ((task.requiredCapabilities.filter
        (fun cap => decide (cap ∈ profile.capabilities))).length : ℚ) := by positivity
    constructor
    · positivity
    · have hdiv : ((task.requiredCapabilities.filter
          (fun cap => decide (cap ∈ profile.capabilities))).length : ℚ) /
          (task.requiredCapabilities.length : ℚ) ≤ 1 := by
        rw [div_le_one hr]
        exact hm
      nlinarith

theorem calculateContextMatch_bounds (task : ParsedTask) (profile : ModelProfile) :
    0 ≤ calculateContextMatch task profile ∧ calculateContextMatch task profile ≤ 100 := by
  unfold calculateContextMatch
  dsimp only
  split_ifs <;> norm_num

theorem calculateLatencyScore_bounds (profile : ModelProfile) :
    0 ≤ calculateLatencyScore profile ∧ calculateLatencyScore profile ≤ 100 := by
  unfold calculateLatencyScore
  dsimp only
  constructor
  · exact le_max_left 0 _
  · exact max_le (by norm_num) (min_le_left _ _)

theorem scoreModel_bounded (task : ParsedTask) (profile : ModelProfile) :
    modelScoreBounded (scoreModel task profile) := by
  have hd := calculateDomainMatch_bounds task profile
  have hc := calculateComplexityMatch_bounds task profile
  have hcap := calculateCapabilityMatch_bounds task profile
  have hctx := calculateContextMatch_bounds task profile
  have hl := calculateLatencyScore_bounds profile
  unfold scoreModel modelScoreBounded
  dsimp only
  refine ⟨⟨?_, ?_⟩, ⟨?_, ?_⟩, ⟨?_, ?_⟩, ⟨?_, ?_⟩, ⟨?_, ?_⟩, ⟨?_, ?_⟩⟩
  · exact round2_nonneg (by nlinarith [hd.1, hc.1, hcap.1, hctx.1, hl.1])
  · exact round2_le_100 (by nlinarith [hd.2, hc.2, hcap.2, hctx.2, hl.2])
  · exact round2_nonneg hd.1
  · exact round2_le_100 hd.2
  · exact round2_nonneg hc.1
  · exact round2_le_100 hc.2
  · exact round2_nonneg hcap.1
  · exact round2_le_100 hcap.2
  · exact round2_nonneg hctx.1
  · exact round2_le_100 hctx.2
  · exact round2_nonneg hl.1
  · exact round2_le_100 hl.2

theorem scoreModel_rounded (task : ParsedTask) (profile : ModelProfile) :
    roundedScore (scoreModel task profile) := by
  unfold scoreModel roundedScore
  exact ⟨_, rfl⟩

theorem mem_orderedInsertBy {α : Type} (r : α → α → Bool) (a x : α) (l : List α) :
    x ∈ orderedInsertBy r a l ↔ x = a ∨ x ∈ l := by
  induction l with
  | nil => simp [orderedInsertBy]
  | cons b t ih =>
    unfold orderedInsertBy
    split_ifs with h
    · simp [List.mem_cons]
    · simp [List.mem_cons, ih]
      tauto

theorem mem_insertionSortBy {α : Type} (r : α → α → Bool) (x : α) (l : List α) :
    x ∈ insertionSortBy r l ↔ x ∈ l := by
  induction l with
  | nil => simp [insertionSortBy]
  | cons a t ih =>
    unfold insertionSortBy
    rw [mem_orderedInsertBy]
    simp [ih]

theorem length_orderedInsertBy {α : Type} (r : α → α → Bool) (a : α) (l : List α) :
    (orderedInsertBy r a l).length = l.length + 1 := by
  induction l with
  | nil => rfl
  | cons b t ih =>
    unfold orderedInsertBy
    split_ifs with h
    · rfl
    · simp only [List.length_cons, ih]

theorem length_insertionSortBy {α : Type} (r : α → α → Bool) (l : List α) :
    (insertionSortBy r l).length = l.length := by
  induction l with
  | nil => rfl
  | cons a t ih =>
    unfold insertionSortBy
    rw [length_orderedInsertBy, ih]
    rfl

theorem scoreCmpLE_total (a b : ModelScore) :
    scoreCmpLE a b = true ∨ scoreCmpLE b a = true := by
  unfold scoreCmpLE
  by_cases h : |a.score - b.score| < 1/100
  · rw [if_pos h, if_pos (show |b.score - a.score| < 1/100 by rwa [abs_sub_comm])]
    rcases le_total a.latencyScore b.latencyScore with h2 | h2
    · exact Or.inl (decide_eq_true h2)
    · exact Or.inr (decide_eq_true h2)
  · rw [if_neg h, if_neg (show ¬(|b.score - a.score| < 1/100) by rwa [abs_sub_comm])]
    rcases le_total a.score b.score with h2 | h2
    · exact Or.inr (decide_eq_true h2)
    · exact Or.inl (decide_eq_true h2)

theorem rounded_tie_eq {a b : ModelScore} (ha : roundedScore a) (hb : roundedScore b)
    (h : |a.score - b.score| < 1/100) : a.score = b.score := by
  obtain ⟨k, hk⟩ := ha
  obtain ⟨m, hm⟩ := hb
  rw [hk, hm] at h ⊢
  rw [abs_sub_lt_iff] at h
  obtain ⟨h1, h2⟩ := h
  have i1 : (k : ℚ) < (m : ℚ) + 1 := by linarith
  have i2 : (m : ℚ) < (k : ℚ) + 1 := by linarith
  have j1 : k < m + 1 := by exact_mod_cast i1
  have j2 : m < k + 1 := by exact_mod_cast i2
  have hkm : k = m := by omega
  rw [hkm]

theorem scoreCmpLE_le {a b : ModelScore} (ha : roundedScore a) (hb : roundedScore b)
    (h : scoreCmpLE a b = true) : b.score ≤ a.score := by
  unfold scoreCmpLE at h
  split_ifs at h with htie
  · exact le_of_eq (rounded_tie_eq ha hb htie).symm
  · exact of_decide_eq_true h

theorem orderedInsertBy_head_max (a : ModelScore) (l : List ModelScore)
    (ha : roundedScore a) (hl : ∀ x ∈ l, roundedScore x)
    (hmax : ∀ x ∈ l, x.score ≤ (l.headD defaultModelScore).score) :
    ∀ x ∈ orderedInsertBy scoreCmpLE a l,
      x.score ≤ ((orderedInsertBy scoreCmpLE a l).headD defaultModelScore).score := by
  cases l with
  | nil =>
    intro x hx
    simp only [orderedInsertBy, List.mem_singleton] at hx
    subst hx
    simp [orderedInsertBy]
  | cons b t =>
    intro x hx
    unfold orderedInsertBy at hx ⊢
    split_ifs at hx ⊢ with h
    · simp only [List.headD_cons]
      have hba : b.score ≤ a.score :=
        scoreCmpLE_le ha (hl b (List.mem_cons_self b t)) h
      rcases List.mem_cons.mp hx with rfl | hx2
      · exact le_refl _
      · have := hmax x hx2
        simp only [List.headD_cons] at this
        linarith
    · simp only [List.headD_cons]
      have hab : a.score ≤ b.score := by
        rcases scoreCmpLE_total a b with h2 | h2
        · exact absurd h2 h
        · exact scoreCmpLE_le (hl b (List.mem_cons_self b t)) ha h2
      rcases List.mem_cons.mp hx with rfl | hx2
      · exact le_refl _
      · rw [mem_orderedInsertBy] at hx2
        rcases hx2 with rfl | hx3
        · exact hab
        · have := hmax x (List.mem_cons_of_mem b hx3)
          simp only [List.headD_cons] at this
          exact this

theorem insertionSortBy_head_max (l : List ModelScore) (hl : ∀ x ∈ l, roundedScore x) :
    ∀ x ∈ insertionSortBy scoreCmpLE l,
      x.score ≤ ((insertionSortBy scoreCmpLE l).headD defaultModelScore).score := by
  induction l with
  | nil =>
    intro x hx
    simp [insertionSortBy] at hx
  | cons a t ih =>
    unfold insertionSortBy
    apply orderedInsertBy_head_max
    · exact hl a (List.mem_cons_self a t)
    · intro x hx
      exact hl x (List.mem_cons_of_mem a ((mem_insertionSortBy _ _ _).mp hx))
    · exact ih (fun x hx => hl x (List.mem_cons_of_mem a hx))

theorem selectModel_ok_spec {task : ParsedTask} {reg : Registry} {res : SelectionResult}
    (h : selectModel task reg = Except.ok res) :
    getAvailableProfiles reg ≠ [] ∧
    res.score = (insertionSortBy scoreCmpLE ((getAvailableProfiles reg).map
      (fun profile => scoreModel task profile))).headD defaultModelScore ∧
    res.alternatives = ((insertionSortBy scoreCmpLE ((getAvailableProfiles reg).map
      (fun profile => scoreModel task profile))).drop 1).take 3 ∧
    res.selectedModel = ((insertionSortBy scoreCmpLE ((getAvailableProfiles reg).map
      (fun profile => scoreModel task profile))).headD defaultModelScore).modelName := by
  unfold selectModel at h
  dsimp only at h
  split_ifs at h with hlen
  simp only [Except.ok.injEq] at h
  subst h
  refine ⟨?_, rfl, rfl, rfl⟩
  intro hnil
  apply hlen
  rw [hnil]
  rfl

set_option maxRecDepth 10000

attribute [local semireducible] Rat.add Rat.sub Rat.mul Rat.inv Rat.ofScientific

/-- A single available profile matching `fibTask`. -/
def wProfile : ModelProfile :=
  { name := "primary"
    provider := "ollama"
    domains := ["math"]
    maxComplexity := TaskComplexity.expert
    capabilities := ["math", "reasoning"]
    contextWindow := 100000
    estimatedLatency := 3000
    costPerToken := 0
    strengths := []
    weaknesses := []
    available := true }

def wRegistry : Registry := [("primary", wProfile)]

/-- Placeholder selection result for reading a successful `Except`. -/
def emptySelectionResult : SelectionResult :=
  { selectedModel := ""
    score := defaultModelScore
    alternatives := []
    reasoning := "" }

/-- Tie construction: a fast model whose small context window zeroes its
context sub-score. Total score for `fibTask`: 30 + 25 + 25 + 0 + 10 = 90. -/
def tieFastProfile : ModelProfile :=
  { name := "fast-model"
    provider := "ollama"
    domains := ["math"]
    maxComplexity := TaskComplexity.expert
    capabilities := ["math", "reasoning"]
    contextWindow := 40
    estimatedLatency := 1000
    costPerToken := 0
    strengths := []
    weaknesses := []
    available := true }

/-- Tie construction: a slow model with an ample context window. Total
score for `fibTask`: 30 + 25 + 25 + 10 + 0 = 90 — an exact tie with
`tieFastProfile`, but with latency score 0 against 100. -/
def tieSlowProfile : ModelProfile :=
  { name := "slow-model"
    provider := "ollama"
    domains := ["math"]
    maxComplexity := TaskComplexity.expert
    capabilities := ["math", "reasoning"]
    contextWindow := 100000
    estimatedLatency := 10000
    costPerToken := 0
    strengths := []
    weaknesses := []
    available := true }

/-- The fast model is listed first, so only the comparator (not sort
stability) can order the slow model ahead of it. -/
def tieRegistry : Registry :=
  [("fast-model", tieFastProfile), ("slow-model", tieSlowProfile)]

/-! ## Claim theorems: model selection -/

/-- C1: for every task and registry, each `ModelScore` computed by
`selectModel` over the available profiles has its total and its five
sub-scores within [0, 100], and when selection succeeds (at least one
available profile) the selected score bounds every alternative's score
from above. -/
theorem selectModel_score_bounds :
    (∀ (task : ParsedTask) (reg : Registry),
        ∀ s ∈ (getAvailableProfiles reg).map (fun profile => scoreModel task profile),
          modelScoreBounded s) ∧
    (∀ (task : ParsedTask) (reg : Registry) (res : SelectionResult),
        selectModel task reg = Except.ok res →
        modelScoreBounded res.score ∧
        (∀ alt ∈ res.alternatives, modelScoreBounded alt ∧ alt.score ≤ res.score.score)) := by
  constructor
  · intro task reg s hs
    obtain ⟨p, -, rfl⟩ := List.mem_map.mp hs
    exact scoreModel_bounded task p
  · intro task reg res h
    obtain ⟨hne, hscore, halts, -⟩ := selectModel_ok_spec h
    have hround : ∀ x ∈ (getAvailableProfiles reg).map (fun profile => scoreModel task profile),
        roundedScore x := by
      intro x hx
      obtain ⟨p, -, rfl⟩ := List.mem_map.mp hx
      exact scoreModel_rounded task p
    have hbound : ∀ x ∈ insertionSortBy scoreCmpLE
        ((getAvailableProfiles reg).map (fun profile => scoreModel task profile)),
        modelScoreBounded x := by
      intro x hx
      obtain ⟨p, -, rfl⟩ := List.mem_map.mp ((mem_insertionSortBy _ _ _).mp hx)
      exact scoreModel_bounded task p
    have hsorted_ne : insertionSortBy scoreCmpLE
        ((getAvailableProfiles reg).map (fun profile => scoreModel task profile)) ≠ [] := by
      intro hnil
      apply hne
      have hlen : (insertionSortBy scoreCmpLE ((getAvailableProfiles reg).map
          (fun profile => scoreModel task profile))).length = 0 := by
        rw [hnil]
        rfl
      rw [length_insertionSortBy, List.length_map] at hlen
      exact List.length_eq_zero.mp hlen
    have hhead_mem : (insertionSortBy scoreCmpLE ((getAvailableProfiles reg).map
        (fun profile => scoreModel task profile))).headD defaultModelScore ∈
        insertionSortBy scoreCmpLE ((getAvailableProfiles reg).map
          (fun profile => scoreModel task profile)) := by
      cases hcase : insertionSortBy scoreCmpLE ((getAvailableProfiles reg).map
          (fun profile => scoreModel task profile)) with
      | nil => exact absurd hcase hsorted_ne
      | cons s t =>
        rw [List.headD_cons]
        exact List.mem_cons_self s t
    constructor
    · rw [hscore]
      exact hbound _ hhead_mem
    · intro alt halt
      rw [halts] at halt
      have h1 : alt ∈ (insertionSortBy scoreCmpLE ((getAvailableProfiles reg).map
          (fun profile => scoreModel task profile))).drop 1 :=
        List.take_subset _ _ halt
      have h2 : alt ∈ insertionSortBy scoreCmpLE ((getAvailableProfiles reg).map
          (fun profile => scoreModel task profile)) :=
        List.drop_subset _ _ h1
      refine ⟨hbound _ h2, ?_⟩
      rw [hscore]
      exact insertionSortBy_head_max _ hround alt h2

/-- C1 witness: a concrete one-profile registry on which selection
succeeds. -/
theorem selectModel_score_bounds_witness :
    modelScoreBounded ((selectModel fibTask wRegistry).toOption.getD emptySelectionResult).score ∧
    (∀ alt ∈ ((selectModel fibTask wRegistry).toOption.getD emptySelectionResult).alternatives,
        modelScoreBounded alt ∧
        alt.score ≤ ((selectModel fibTask wRegistry).toOption.getD
          emptySelectionResult).score.score) :=
  selectModel_score_bounds.2 fibTask wRegistry
    ((selectModel fibTask wRegistry).toOption.getD emptySelectionResult) (by decide)

/-- C2: in the ranking comparator, candidates whose total scores differ by
less than 0.01 are ordered by ascending `latencyScore` (the numerically
smaller `latencyScore` — i.e. the higher-raw-latency model — sorts first),
otherwise by total score descending; the selected model is the head of the
comparator-sorted candidate list. The final conjunct pins a constructed
tie: `slow-model`, listed second with equal total score but smaller
`latencyScore`, is the one selected. -/
theorem selectModel_tiebreak_spec :
    (∀ a b : ModelScore, |a.score - b.score| < 1/100 →
        (scoreCmpLE a b = true ↔ a.latencyScore ≤ b.latencyScore)) ∧
    (∀ a b : ModelScore, ¬(|a.score - b.score| < 1/100) →
        (scoreCmpLE a b = true ↔ b.score ≤ a.score)) ∧
    (∀ (task : ParsedTask) (reg : Registry) (res : SelectionResult),
        selectModel task reg = Except.ok res →
        res.selectedModel = ((insertionSortBy scoreCmpLE ((getAvailableProfiles reg).map
          (fun profile => scoreModel task profile))).headD defaultModelScore).modelName) ∧
    ((selectModel fibTask tieRegistry).toOption.map (fun r => r.selectedModel) =
        some ("slow-model") ∧
      (scoreModel fibTask tieSlowProfile).score = (scoreModel fibTask tieFastProfile).score ∧
      (scoreModel fibTask tieSlowProfile).latencyScore <
        (scoreModel fibTask tieFastProfile).latencyScore) := by
  refine ⟨?_, ?_, ?_, by decide, by decide, by decide⟩
  · intro a b h
    unfold scoreCmpLE
    rw [if_pos h]
    simp
  · intro a b h
    unfold scoreCmpLE
    rw [if_neg h]
    simp
  · intro task reg res h
    exact (selectModel_ok_spec h).2.2.2

/-- C2 witness: the head-of-sorted-list characterization applied at the
constructed tie registry. -/
theorem selectModel_tiebreak_spec_witness :
    ((selectModel fibTask tieRegistry).toOption.getD emptySelectionResult).selectedModel =
      ((insertionSortBy scoreCmpLE ((getAvailableProfiles tieRegistry).map
        (fun profile => scoreModel fibTask profile))).headD defaultModelScore).modelName :=
  selectModel_tiebreak_spec.2.2.1 fibTask tieRegistry
    ((selectModel fibTask tieRegistry).toOption.getD emptySelectionResult) (by decide)

/-- C7: `selectModel` is a pure function of the task and the registry
snapshot — two calls on the same arguments give the same result — and it
fails with `AvailabilityError` exactly when the registry has no available
profile. -/
theorem selectModel_deterministic_and_availability :
    (∀ (task : ParsedTask) (reg : Registry),
        selectModel task reg = selectModel task reg) ∧
    (∀ (task : ParsedTask) (reg : Registry),
        (∃ e, selectModel task reg = Except.error e) ↔ getAvailableProfiles reg = []) := by
  refine ⟨fun _ _ => rfl, ?_⟩
  intro task reg
  by_cases hlen : (getAvailableProfiles reg).length = 0
  · have hnil : getAvailableProfiles reg = [] := List.length_eq_zero.mp hlen
    constructor
    · intro _
      exact hnil
    · intro _
      refine ⟨⟨"No models available. Please ensure Ollama Remote MCP is running and models are configured."⟩, ?_⟩
      unfold selectModel
      dsimp only
      rw [if_pos hlen]
  · have hnil : getAvailableProfiles reg ≠ [] := by
      intro hn
      apply hlen
      rw [hn]
      rfl
    constructor
    · rintro ⟨e, he⟩
      exfalso
      unfold selectModel at he
      dsimp only at he
      rw [if_neg hlen] at he
      exact absurd he (by simp)
    · intro hn
      exact absurd hn hnil

/-- C7 witness: the empty registry has no available profile, so selection
fails there; and the characterization applied at the nonempty witness
registry. -/
theorem selectModel_deterministic_and_availability_witness :
    (∃ e, selectModel fibTask ([] : Registry) = Except.error e) ∧
    ¬(∃ e, selectModel fibTask wRegistry = Except.error e) := by
  constructor
  · exact (selectModel_deterministic_and_availability.2 fibTask []).mpr (by decide)
  · intro hex
    have := (selectModel_deterministic_and_availability.2 fibTask wRegistry).mp hex
    exact absurd this (by decide)

/-! ## Registry-loading lemmas -/

theorem lookupStr_cons {β : Type} (a k : String) (b : β) (es : List (String × β)) :
    ((k, b) :: es).lookup a = if a = k then some b else es.lookup a := by
  rw [List.lookup_cons]
  by_cases h : a = k
  · rw [if_pos h, show (a == k) = true from by simp [h]]
  · rw [if_neg h, show (a == k) = false from by simp [h]]

theorem getProfile_setProfile (reg : Registry) (name : String) (profile : ModelProfile) :
    ∀ k, getProfile (setProfile reg name profile) k =
      if k = name then some profile else getProfile reg k := by
  induction reg with
  | nil =>
    intro k
    unfold setProfile getProfile
    rw [lookupStr_cons]
  | cons e rest ih =>
    intro k
    obtain ⟨k0, v0⟩ := e
    unfold setProfile
    by_cases h0 : k0 = name
    · rw [if_pos h0]
      unfold getProfile
      rw [lookupStr_cons, lookupStr_cons]
      by_cases hk : k = k0
      · rw [if_pos hk, if_pos (hk.trans h0)]
      · rw [if_neg hk, if_neg (fun hkn => hk (hkn.trans h0.symm)), if_neg hk]
    · rw [if_neg h0]
      unfold getProfile at ih ⊢
      rw [lookupStr_cons, lookupStr_cons]
      by_cases hk : k = k0
      · have hkname : ¬(k = name) := fun hkn => h0 (hk.symm.trans hkn)
        rw [if_pos hk, if_neg hkname, if_pos hk]
      · rw [if_neg hk, if_neg hk]
        exact ih k

theorem setProfile_ne_nil (reg : Registry) (name : String) (profile : ModelProfile) :
    setProfile reg name profile ≠ [] := by
  cases reg with
  | nil => simp [setProfile]
  | cons e rest =>
    obtain ⟨k0, v0⟩ := e
    unfold setProfile
    split_ifs <;> simp

theorem processEntries_filter (es : List (String × RawProfileData)) :
    ∀ reg, processEntries reg es =
      processEntries reg (es.filter (fun e => (validateAndCreateProfile e.1 e.2).isOk)) := by
  induction es with
  | nil =>
    intro reg
    rfl
  | cons e es ih =>
    intro reg
    cases hv : validateAndCreateProfile e.1 e.2 with
    | ok profile =>
      rw [show (e :: es).filter (fun x => (validateAndCreateProfile x.1 x.2).isOk) =
          e :: es.filter (fun x => (validateAndCreateProfile x.1 x.2).isOk) from by
        simp [List.filter_cons, hv, Except.isOk, Except.toBool]]
      simp only [processEntries, List.foldl_cons, hv]
      exact ih (setProfile reg e.1 profile)
    | error err =>
      rw [show (e :: es).filter (fun x => (validateAndCreateProfile x.1 x.2).isOk) =
          es.filter (fun x => (validateAndCreateProfile x.1 x.2).isOk) from by
        simp [List.filter_cons, hv, Except.isOk, Except.toBool]]
      simp only [processEntries, List.foldl_cons, hv]
      exact ih reg

theorem loadProfiles_entries_fst (reg : Registry) (es : List (String × RawProfileData)) :
    (loadProfiles reg (ConfigSource.entries es)).1 = processEntries reg es := by
  unfold loadProfiles
  dsimp only
  split_ifs <;> rfl

theorem processEntries_preserves (es : List (String × RawProfileData)) :
    ∀ (reg : Registry) (name : String), (getProfile reg name).isSome = true →
      (getProfile (processEntries reg es) name).isSome = true := by
  induction es with
  | nil =>
    intro reg name h
    exact h
  | cons e es ih =>
    intro reg name h
    cases hv : validateAndCreateProfile e.1 e.2 with
    | ok profile =>
      simp only [processEntries, List.foldl_cons, hv]
      have hset : (getProfile (setProfile reg e.1 profile) name).isSome = true := by
        rw [getProfile_setProfile]
        split_ifs <;> simp [h]
      have := ih (setProfile reg e.1 profile) name hset
      simpa [processEntries] using this
    | error err =>
      simp only [processEntries, List.foldl_cons, hv]
      have := ih reg name h
      simpa [processEntries] using this

/-! ## Claim theorems: registry loading -/

/-- C8: `loadProfiles` reports a `ConfigurationError` exactly for an
unreadable source, a malformed one (no models mapping), or an entry list
that leaves the registry empty; entries failing validation are skipped and
never stored — processing a list equals processing only its valid entries,
and the loaded registry state is exactly that processing — so one bad
entry alone never aborts the load. -/
theorem loadProfiles_error_spec :
    (∀ (reg : Registry) (src : ConfigSource),
        (loadProfiles reg src).2.isSome = true ↔
          ((∃ m, src = ConfigSource.unreadable m) ∨ src = ConfigSource.malformed ∨
            (∃ es, src = ConfigSource.entries es ∧ (loadProfiles reg src).1 = []))) ∧
    (∀ (reg : Registry) (entries : List (String × RawProfileData)),
        processEntries reg entries =
          processEntries reg (entries.filter (fun e => (validateAndCreateProfile e.1 e.2).isOk)) ∧
        (loadProfiles reg (ConfigSource.entries entries)).1 = processEntries reg entries) := by
  constructor
  · intro reg src
    cases src with
    | unreadable m =>
      constructor
      · intro _
        exact Or.inl ⟨m, rfl⟩
      · intro _
        rfl
    | malformed =>
      constructor
      · intro _
        exact Or.inr (Or.inl rfl)
      · intro _
        rfl
    | entries es =>
      by_cases hl : (processEntries reg es).length = 0
      · have hnil : processEntries reg es = [] := List.length_eq_zero.mp hl
        constructor
        · intro _
          refine Or.inr (Or.inr ⟨es, rfl, ?_⟩)
          rw [loadProfiles_entries_fst]
          exact hnil
        · intro _
          unfold loadProfiles
          dsimp only
          rw [if_pos hl]
          rfl
      · constructor
        · intro hsome
          exfalso
          unfold loadProfiles at hsome
          dsimp only at hsome
          rw [if_neg hl] at hsome
          exact absurd hsome (by simp)
        · rintro (⟨m, hm⟩ | hm | ⟨es2, hes, hfst⟩)
          · exact absurd hm (by simp)
          · exact absurd hm (by simp)
          · exfalso
            apply hl
            simp only [ConfigSource.entries.injEq] at hes
            subst hes
            rw [loadProfiles_entries_fst] at hfst
            rw [hfst]
            rfl
  · intro reg entries
    exact ⟨processEntries_filter entries reg, loadProfiles_entries_fst reg entries⟩

/-- An entry with every required field missing. -/
def badRaw : RawProfileData :=
  { provider := none
    domains := none
    maxComplexity := none
    capabilities := none
    contextWindow := none
    estimatedLatency := none
    costPerToken := none
    strengths := none
    weaknesses := none }

/-- A fully valid raw entry. -/
def goodRaw : RawProfileData :=
  { provider := some ("ollama")
    domains := some ["math"]
    maxComplexity := some ("expert")
    capabilities := some ["math"]
    contextWindow := some 1000
    estimatedLatency := some 100
    costPerToken := some 0
    strengths := some []
    weaknesses := some [] }

/-- The profile `goodRaw` validates to, under the name `primary`. -/
def goodProfile : ModelProfile :=
  { name := "primary"
    provider := "ollama"
    domains := ["math"]
    maxComplexity := TaskComplexity.expert
    capabilities := ["math"]
    contextWindow := 1000
    estimatedLatency := 100
    costPerToken := 0
    strengths := []
    weaknesses := []
    available := false }

/-- C8 witness: loading one all-invalid entry into an empty registry
leaves it empty and therefore errors. -/
theorem loadProfiles_error_spec_witness :
    (loadProfiles [] (ConfigSource.entries [(("x"), badRaw)])).2.isSome = true ∧
    processEntries [] [(("x"), badRaw)] =
      processEntries []
        ([(("x"), badRaw)].filter (fun e => (validateAndCreateProfile e.1 e.2).isOk)) := by
  constructor
  · exact (loadProfiles_error_spec.1 [] (ConfigSource.entries [(("x"), badRaw)])).mpr
      (Or.inr (Or.inr ⟨[(("x"), badRaw)], rfl, by decide⟩))
  · exact (loadProfiles_error_spec.2 [] [(("x"), badRaw)]).1

/-- C10: `loadProfiles` never removes a profile — every name present
before is present after, whether the call errors or not — and a valid
entry whose name matches an existing profile overwrites exactly that
profile, leaving every other name untouched, so repeated loads accumulate
rather than reset the registry. -/
theorem loadProfiles_frame_spec :
    (∀ (reg : Registry) (src : ConfigSource) (name : String) (p : ModelProfile),
        getProfile reg name = some p →
        ∃ p2, getProfile (loadProfiles reg src).1 name = some p2) ∧
    (∀ (reg : Registry) (name : String) (data : RawProfileData) (profile : ModelProfile),
        validateAndCreateProfile name data = Except.ok profile →
        getProfile (loadProfiles reg (ConfigSource.entries [(name, data)])).1 name =
          some profile ∧
        (∀ other, other ≠ name →
          getProfile (loadProfiles reg (ConfigSource.entries [(name, data)])).1 other =
            getProfile reg other)) := by
  constructor
  · intro reg src name p h
    cases src with
    | unreadable m =>
      exact ⟨p, h⟩
    | malformed =>
      exact ⟨p, h⟩
    | entries es =>
      rw [loadProfiles_entries_fst]
      have hsome : (getProfile reg name).isSome = true := by
        rw [h]
        rfl
      have := processEntries_preserves es reg name hsome
      obtain ⟨p2, hp2⟩ := Option.isSome_iff_exists.mp this
      exact ⟨p2, hp2⟩
  · intro reg name data profile hv
    have hset : (loadProfiles reg (ConfigSource.entries [(name, data)])).1 =
        setProfile reg name profile := by
      rw [loadProfiles_entries_fst]
      simp only [processEntries, List.foldl_cons, List.foldl_nil, hv]
    constructor
    · rw [hset, getProfile_setProfile]
      rw [if_pos rfl]
    · intro other hother
      rw [hset, getProfile_setProfile]
      rw [if_neg hother]

/-- C10 witness: loading a valid entry named `primary` over `wRegistry`
(which already holds a `primary` profile) overwrites it in place and
leaves other names unchanged; the old name is still present. -/
theorem loadProfiles_frame_spec_witness :
    (∃ p2, getProfile
        (loadProfiles wRegistry (ConfigSource.entries [(("primary"), goodRaw)])).1
        ("primary") = some p2) ∧
    getProfile (loadProfiles wRegistry
        (ConfigSource.entries [(("primary"), goodRaw)])).1 ("primary") = some goodProfile ∧
    getProfile (loadProfiles wRegistry
        (ConfigSource.entries [(("primary"), goodRaw)])).1 ("other") =
      getProfile wRegistry ("other") := by
  have h1 := loadProfiles_frame_spec.1 wRegistry
    (ConfigSource.entries [(("primary"), goodRaw)]) ("primary") wProfile (by decide)
  have h2 := loadProfiles_frame_spec.2 wRegistry ("primary") goodRaw goodProfile (by decide)
  exact ⟨h1, h2.1, h2.2 ("other") (by decide)⟩

end MiniSWE
